import Mathlib

/-!
Verification of the pass-prediction core of the HSE satellites Telegram bot
(`src/main.py`) against its specification.

The shallow embedding below translates the Python functions into Lean:
times and elevations are rationals (seconds / degrees), Python's
`(list, error)` return convention becomes `Except String`, and the module-level
globals become an explicit `BotState` record threaded through the calls.
Calls into the external `skyfield` library (`EarthSatellite(...)`,
`sat.find_events(...)`, `.altaz()`) are abstract function parameters; the
guarantees `skyfield` documents for them are captured by the `FindEventsSpec`
predicate and assumed as hypotheses where a claim needs them.
-/

/-- Python's substring test `pat in line` (used as `SAT_NAME in line`). -/
def lineContains (line pat : String) : Bool :=
  decide (pat.toList <:+: line.toList)

/-- Error message of `main.py` line 80: TLE file absent. -/
def tleFileMissingMsg : String :=
  "TLE-файл не найден. Обновите его командой /update_tle."

/-- Error message of `main.py` line 88: matched name line has fewer than two
following lines. -/
def tleIncompleteMsg : String :=
  "Неполные данные TLE для спутника."

/-- Error message of `main.py` line 89: no line contains the identifier. -/
def tleNotFoundMsg : String :=
  "Спутник не найден в TLE-файле."

/-- The scanning loop of `get_tle_for_satellite` (`main.py` lines 82-89):
find the first line containing `satName`; if at least two lines follow,
return the triple, else the incomplete-data error; if no line matches,
the not-found error. -/
def findTleBlock (satName : String) : List String → Except String (String × String × String)
  | [] => .error tleNotFoundMsg
  | line :: rest =>
    if lineContains line satName then
      match rest with
      | l1 :: l2 :: _ => .ok (line, l1, l2)
      | _ => .error tleIncompleteMsg
    else
      findTleBlock satName rest

/-- The mutable module-level configuration of `main.py` lines 24-31
(`SAT_NAME`, station coordinates and elevation, `ALTITUDE_THRESHOLD`,
`NOTIFY_MINUTES`). -/
structure Config where
  satName : String
  stationLat : ℚ
  stationLon : ℚ
  stationElevation : ℚ
  altitudeThreshold : ℚ
  notifyMinutes : ℤ
deriving DecidableEq

/-- The shared mutable module state read and written by the bot:
the cached TLE text (`tle_content`, `main.py` line 34) and the
configuration globals. -/
structure BotState where
  tleContent : Option (List String)
  config : Config
deriving DecidableEq

/-- `get_tle_for_satellite` (`main.py` lines 63-89).  TLE text is represented
throughout by its list of lines (the result of `splitlines()` at line 82).
`file` is the content of `tle.txt` on disk (`none` when the file is absent and
`open` raises).  When the cached `tle_content` is `None` the function reads
the file and ASSIGNS the global `tle_content` (line 74), so it returns the
updated state alongside the result. -/
def getTleForSatellite (st : BotState) (file : Option (List String)) :
    Except String (String × String × String) × BotState :=
  match st.tleContent with
  | some txt => (findTleBlock st.config.satName txt, st)
  | none =>
    match file with
    | some txt =>
        (findTleBlock st.config.satName txt,
         { st with tleContent := some txt })
    | none => (.error tleFileMissingMsg, st)

/-- The `skyfield.api.EarthSatellite` object as far as this program uses it:
the two TLE lines and the display name passed to the constructor
(`main.py` line 98). -/
structure EarthSatellite where
  line1 : String
  line2 : String
  name : String
deriving DecidableEq

/-- `get_satellite` (`main.py` lines 92-101).  `tryMakeSat` models the
`EarthSatellite(...)` constructor of the external library, which may raise
(caught at line 100 and turned into an error string). -/
def getSatellite (tryMakeSat : String → String → String → Option EarthSatellite)
    (st : BotState) (file : Option (List String)) :
    Except String EarthSatellite × BotState :=
  let r := getTleForSatellite st file
  match r.1 with
  | .error e => (.error e, r.2)
  | .ok (_, l1, l2) =>
    match tryMakeSat l1 l2 r.2.config.satName with
    | some sat => (.ok sat, r.2)
    | none => (.error "Ошибка создания спутника", r.2)

/-- A pass record appended at `main.py` lines 146-153: rise, culmination and
set instants and the elevation computed at the culmination instant. -/
structure PassEvent where
  rise : ℚ
  culmination : ℚ
  set : ℚ
  maxElevation : ℚ
deriving DecidableEq

/-- The event-scanning loop of `calculate_passes` (`main.py` lines 127-157).
The input list pairs each event time with its skyfield event code
(0 = rise, 1 = culmination, 2 = set); `elev` models
`(sat - station).at(t).altaz()` elevation in degrees.  A pass is emitted only
for a consecutive `0,1,2` triple whose culmination elevation is at least `θ`
(`ALTITUDE_THRESHOLD`); on a triple the index advances by 3, otherwise by 1. -/
def passLoop (elev : ℚ → ℚ) (θ : ℚ) : List (ℚ × ℕ) → List PassEvent
  | (t0, e0) :: (t1, e1) :: (t2, e2) :: rest =>
    if e0 = 0 ∧ e1 = 1 ∧ e2 = 2 then
      (if elev t1 ≥ θ then [⟨t0, t1, t2, elev t1⟩] else []) ++ passLoop elev θ rest
    else
      passLoop elev θ ((t1, e1) :: (t2, e2) :: rest)
  | _ :: rest => passLoop elev θ rest
  | [] => []

/-- `calculate_passes` (`main.py` lines 104-157).  `findEvents` models
`sat.find_events(station, t0, t1, altitude_degrees=0)`, which may raise
(caught at line 125); `elevAt` models the elevation obtained from
`(sat - station).at(t).altaz()`.  Returns the result together with the
(possibly updated) module state. -/
def calculatePasses (tryMakeSat : String → String → String → Option EarthSatellite)
    (findEvents : EarthSatellite → Except String (List (ℚ × ℕ)))
    (elevAt : EarthSatellite → ℚ → ℚ)
    (st : BotState) (file : Option (List String)) :
    Except String (List PassEvent) × BotState :=
  let r := getSatellite tryMakeSat st file
  match r.1 with
  | .error e => (.error e, r.2)
  | .ok sat =>
    match findEvents sat with
    | .error e => (.error ("Ошибка расчёта пролётов: " ++ e), r.2)
    | .ok evs => (.ok (passLoop (elevAt sat) r.2.config.altitudeThreshold evs), r.2)

/-- A `JobQueue.run_once` registration created by `schedule_notification`
(`main.py` lines 187-189): the delay in seconds and the chat id. -/
structure ScheduledJob where
  delay : ℚ
  chatId : ℤ
deriving DecidableEq

/-- `schedule_notification` (`main.py` lines 178-191).  Times are in seconds;
`notify_time = pass_time - timedelta(minutes=NOTIFY_MINUTES)`,
`delay = (notify_time - now).total_seconds()`; a job is registered iff
`delay > 0`, otherwise the function only logs and creates nothing. -/
def scheduleNotification (passTime : ℚ) (notifyMinutes : ℤ) (now : ℚ) (chatId : ℤ) :
    Option ScheduledJob :=
  let notifyTime := passTime - (notifyMinutes : ℚ) * 60
  let delay := notifyTime - now
  if delay > 0 then some ⟨delay, chatId⟩ else none

/-- The contract `skyfield`'s `find_events(..., altitude_degrees=0)` documents
for its output, stated over the zipped `(time, code)` list and the elevation
function: event times are chronological, rise and set events are 0° horizon
crossings, the culmination of each complete rise/culminate/set triple is the
highest point of that pass, and a rise event only occurs when the object gets
above the horizon somewhere. -/
structure FindEventsSpec (elev : ℚ → ℚ) (evs : List (ℚ × ℕ)) : Prop where
  chron : evs.Pairwise (fun a b => a.1 < b.1)
  horizonZero : ∀ te ∈ evs, te.2 = 0 ∨ te.2 = 2 → elev te.1 = 0
  culminationMax : ∀ pre t0 t1 t2 post,
    evs = pre ++ (t0, 0) :: (t1, 1) :: (t2, 2) :: post →
    ∀ t, t0 ≤ t → t ≤ t2 → elev t ≤ elev t1
  risePositive : ∀ te ∈ evs, te.2 = 0 → ∃ t, 0 < elev t

/-- The default configuration values of `main.py` lines 24-31. -/
def defaultConfig : Config where
  satName := "CUBESX-HSE 3"
  stationLat := 55.7558
  stationLon := 37.6173
  stationElevation := 144
  altitudeThreshold := 15
  notifyMinutes := 15

/-- A satellite constructor that always succeeds (stand-in for
`EarthSatellite(...)` in concrete instantiations). -/
def demoMakeSat : String → String → String → Option EarthSatellite :=
  fun l1 l2 n => some ⟨l1, l2, n⟩

/-- A minimal cached TLE block containing the default tracked identifier. -/
def demoLines : List String := ["CUBESX-HSE 3", "L1", "L2"]

/-- A state whose TLE cache is already filled with `demoLines`. -/
def demoState : BotState := ⟨some demoLines, defaultConfig⟩

/-- One rise/culmination/set event triple at times 10, 20, 30. -/
def demoEvents : List (ℚ × ℕ) := [(10, 0), (20, 1), (30, 2)]

/-- A `find_events` stand-in that returns `demoEvents`. -/
def demoFindEvents : EarthSatellite → Except String (List (ℚ × ℕ)) :=
  fun _ => .ok demoEvents

/-- A constant 20° elevation profile. -/
def constElev : ℚ → ℚ := fun _ => 20

/-- The constant elevation profile, independent of the satellite. -/
def demoElev : EarthSatellite → ℚ → ℚ := fun _ => constElev

/-- A parabolic elevation profile with horizon crossings at `t = 1` and
`t = 3` and culmination 1° at `t = 2`. -/
def parabolaElev : ℚ → ℚ := fun t => (t - 1) * (3 - t)

/-- The event triple of `parabolaElev`'s single pass. -/
def parabolaEvents : List (ℚ × ℕ) := [(1, 0), (2, 1), (3, 2)]

/-- An identically-zero elevation profile (object never above the horizon). -/
def zeroElev : ℚ → ℚ := fun _ => 0

/-- An event list holding a single culmination event and no rise. -/
def culminationOnlyEvents : List (ℚ × ℕ) := [(5, 1)]

/-- Any pass in the output of the loop comes from a consecutive
rise/culminate/set triple of the input, its recorded elevation is the
elevation at the culmination instant, and it passed the threshold. -/
theorem passLoop_mem_decomp (elev : ℚ → ℚ) (θ : ℚ) (evs : List (ℚ × ℕ))
    (p : PassEvent) (hp : p ∈ passLoop elev θ evs) :
    ∃ pre post, evs = pre ++ (p.rise, 0) :: (p.culmination, 1) :: (p.set, 2) :: post ∧
      p.maxElevation = elev p.culmination ∧ θ ≤ p.maxElevation := by
  induction evs using passLoop.induct elev θ with
  | case1 t0 e0 t1 e1 t2 e2 rest h ih =>
    obtain ⟨h0, h1, h2⟩ := h
    subst h0 h1 h2
    rw [passLoop, if_pos ⟨rfl, rfl, rfl⟩] at hp
    rcases List.mem_append.1 hp with hmem | hmem
    · by_cases hth : elev t1 ≥ θ
      · rw [if_pos hth] at hmem
        simp only [List.mem_singleton] at hmem
        subst hmem
        exact ⟨[], rest, rfl, rfl, hth⟩
      · rw [if_neg hth] at hmem
        simp at hmem
    · obtain ⟨pre, post, heq, hmax, hth⟩ := ih hmem
      exact ⟨(t0, 0) :: (t1, 1) :: (t2, 2) :: pre, post, by simp [heq], hmax, hth⟩
  | case2 t0 e0 t1 e1 t2 e2 rest h ih =>
    rw [passLoop, if_neg h] at hp
    obtain ⟨pre, post, heq, hmax, hth⟩ := ih hp
    exact ⟨(t0, e0) :: pre, post, by simp [heq], hmax, hth⟩
  | case3 hd rest hne ih =>
    rcases rest with _ | ⟨a, _ | ⟨b, tl⟩⟩
    · simp [passLoop] at hp
    · simp [passLoop] at hp
    · exact ((hne hd.1 hd.2 a.1 a.2 b.1 b.2 tl rfl rfl)).elim
  | case4 => simp [passLoop] at hp

/-- `get_tle_for_satellite` never writes any configuration global. -/
theorem getTleForSatellite_config (st : BotState) (file : Option (List String)) :
    ((getTleForSatellite st file).2).config = st.config := by
  rcases st with ⟨tc, cfg⟩
  cases tc <;> cases file <;> rfl

/-- When the TLE text is already cached, `get_tle_for_satellite` leaves the
whole state untouched. -/
theorem getTleForSatellite_cached (st : BotState) (file : Option (List String))
    (txt : List String) (h : st.tleContent = some txt) :
    (getTleForSatellite st file).2 = st := by
  rcases st with ⟨tc, cfg⟩
  cases tc with
  | none => simp at h
  | some t => cases file <;> rfl

/-- When the cache is empty, `get_tle_for_satellite` fills it with exactly the
file's content (or leaves it empty when the file is absent). -/
theorem getTleForSatellite_fills (st : BotState) (file : Option (List String))
    (h : st.tleContent = none) :
    ((getTleForSatellite st file).2).tleContent = file := by
  rcases st with ⟨tc, cfg⟩
  cases tc with
  | none => cases file <;> rfl
  | some t => simp at h

/-- `get_satellite` performs no state change beyond the one done by
`get_tle_for_satellite`. -/
theorem getSatellite_state (mk : String → String → String → Option EarthSatellite)
    (st : BotState) (file : Option (List String)) :
    (getSatellite mk st file).2 = (getTleForSatellite st file).2 := by
  unfold getSatellite
  rcases h : (getTleForSatellite st file).1 with e | ⟨nm, l1, l2⟩
  · simp [h]
  · simp only [h]
    cases hmk : mk l1 l2 ((getTleForSatellite st file).2).config.satName <;> simp [hmk]

/-- `calculate_passes` performs no state change beyond the one done by
`get_tle_for_satellite`. -/
theorem calculatePasses_state (mk : String → String → String → Option EarthSatellite)
    (findEvents : EarthSatellite → Except String (List (ℚ × ℕ)))
    (elevAt : EarthSatellite → ℚ → ℚ) (st : BotState) (file : Option (List String)) :
    (calculatePasses mk findEvents elevAt st file).2 = (getTleForSatellite st file).2 := by
  unfold calculatePasses
  rw [← getSatellite_state mk st file]
  rcases h : (getSatellite mk st file).1 with e | sat
  · simp [h]
  · simp only [h]
    cases hev : findEvents sat <;> simp [hev]

/-- Successful `calculate_passes` output decomposes into a successful
satellite construction, a successful `find_events` call, and the scanning
loop applied at the configured threshold. -/
theorem calculatePasses_ok_decomp (mk : String → String → String → Option EarthSatellite)
    (findEvents : EarthSatellite → Except String (List (ℚ × ℕ)))
    (elevAt : EarthSatellite → ℚ → ℚ) (st : BotState) (file : Option (List String))
    (passes : List PassEvent)
    (h : (calculatePasses mk findEvents elevAt st file).1 = .ok passes) :
    ∃ sat evs, (getSatellite mk st file).1 = .ok sat ∧ findEvents sat = .ok evs ∧
      passes = passLoop (elevAt sat) st.config.altitudeThreshold evs := by
  simp only [calculatePasses] at h
  rcases hsat : (getSatellite mk st file).1 with e | sat <;> rw [hsat] at h
  · simp at h
  · simp only [] at h
    rcases hev : findEvents sat with e | evs <;> rw [hev] at h
    · simp at h
    · simp only [Except.ok.injEq] at h
      refine ⟨sat, evs, rfl, hev, ?_⟩
      rw [← h, getSatellite_state, getTleForSatellite_config]

/-- Any event whose code is not `0` (rise) at the head of the list is skipped
with no output: the loop advances by one. -/
theorem passLoop_cons_of_ne (elev : ℚ → ℚ) (θ : ℚ) (t : ℚ) (e : ℕ)
    (rest : List (ℚ × ℕ)) (he : e ≠ 0) :
    passLoop elev θ ((t, e) :: rest) = passLoop elev θ rest := by
  rcases rest with _ | ⟨a, _ | ⟨b, tl⟩⟩
  · rfl
  · rfl
  · obtain ⟨a1, a2⟩ := a
    obtain ⟨b1, b2⟩ := b
    rw [passLoop, if_neg]
    rintro ⟨h0, -⟩
    exact he h0

/-- If the event list contains no rise event at all, the loop emits nothing. -/
theorem passLoop_no_rise (elev : ℚ → ℚ) (θ : ℚ) :
    ∀ evs : List (ℚ × ℕ), (∀ te ∈ evs, te.2 ≠ 0) → passLoop elev θ evs = []
  | [], _ => rfl
  | (t, e) :: rest, h => by
    rw [passLoop_cons_of_ne elev θ t e rest (h (t, e) (List.mem_cons_self _ _))]
    exact passLoop_no_rise elev θ rest (fun te hte => h te (List.mem_cons_of_mem _ hte))

/-- Errors of `get_tle_for_satellite` propagate unchanged through
`get_satellite`. -/
theorem getSatellite_error (mk : String → String → String → Option EarthSatellite)
    (st : BotState) (file : Option (List String)) (e : String)
    (h : (getTleForSatellite st file).1 = .error e) :
    (getSatellite mk st file).1 = .error e := by
  unfold getSatellite
  simp [h]

/-- A failing `EarthSatellite(...)` construction surfaces as the
creation-error message of `get_satellite`. -/
theorem getSatellite_mk_fail (mk : String → String → String → Option EarthSatellite)
    (st : BotState) (file : Option (List String)) (nm l1 l2 : String)
    (h : (getTleForSatellite st file).1 = .ok (nm, l1, l2))
    (hmk : mk l1 l2 ((getTleForSatellite st file).2).config.satName = none) :
    (getSatellite mk st file).1 = .error "Ошибка создания спутника" := by
  unfold getSatellite
  simp [h, hmk]

/-- Errors of `get_satellite` propagate unchanged through
`calculate_passes`. -/
theorem calculatePasses_error (mk : String → String → String → Option EarthSatellite)
    (findEvents : EarthSatellite → Except String (List (ℚ × ℕ)))
    (elevAt : EarthSatellite → ℚ → ℚ) (st : BotState) (file : Option (List String))
    (e : String) (h : (getSatellite mk st file).1 = .error e) :
    (calculatePasses mk findEvents elevAt st file).1 = .error e := by
  unfold calculatePasses
  simp [h]

/-- C1: every pass returned by `calculate_passes` has peak elevation at least
the configured `ALTITUDE_THRESHOLD`; a rise/culmination/set triple whose
culmination elevation is below the threshold is discarded entirely and
contributes no pass to the result. -/
theorem calculatePasses_threshold (mk : String → String → String → Option EarthSatellite)
    (findEvents : EarthSatellite → Except String (List (ℚ × ℕ)))
    (elevAt : EarthSatellite → ℚ → ℚ) (st : BotState) (file : Option (List String))
    (passes : List PassEvent) (p : PassEvent)
    (hok : (calculatePasses mk findEvents elevAt st file).1 = .ok passes)
    (hp : p ∈ passes) : st.config.altitudeThreshold ≤ p.maxElevation := by
  obtain ⟨sat, evs, -, -, hpasses⟩ :=
    calculatePasses_ok_decomp mk findEvents elevAt st file passes hok
  subst hpasses
  obtain ⟨pre, post, -, -, hth⟩ := passLoop_mem_decomp _ _ _ _ hp
  exact hth

/-- Witness for C1 at the default configuration: the single 20°-peak pass of
`demoEvents` passes the 15° threshold. -/
theorem calculatePasses_threshold_witness :
    defaultConfig.altitudeThreshold ≤ (⟨10, 20, 30, 20⟩ : PassEvent).maxElevation :=
  calculatePasses_threshold demoMakeSat demoFindEvents demoElev demoState none
    [⟨10, 20, 30, 20⟩] ⟨10, 20, 30, 20⟩
    (by norm_num [calculatePasses, getSatellite, getTleForSatellite, demoState,
      demoMakeSat, demoFindEvents, demoEvents, demoElev, constElev, defaultConfig,
      findTleBlock, lineContains, demoLines, passLoop])
    (List.mem_singleton_self _)

/-- C2: `schedule_notification` computes the fire instant
`pass_time - NOTIFY_MINUTES` (converted to seconds) and registers a one-shot
job with delay `fire - now` iff that instant is still in the future; otherwise
it creates nothing (an informational no-op, not an error). -/
theorem scheduleNotification_spec (p : ℚ) (m : ℤ) (now : ℚ) (c : ℤ) :
    (now < p - (m : ℚ) * 60 →
      scheduleNotification p m now c = some ⟨p - (m : ℚ) * 60 - now, c⟩) ∧
    (p - (m : ℚ) * 60 ≤ now → scheduleNotification p m now c = none) ∧
    ((scheduleNotification p m now c).isSome ↔ now < p - (m : ℚ) * 60) := by
  unfold scheduleNotification
  by_cases h : p - (m : ℚ) * 60 - now > 0
  · rw [if_pos h]
    exact ⟨fun _ => rfl, fun hle => absurd h (by linarith),
      by rw [Option.isSome_some]; exact iff_of_true rfl (by linarith)⟩
  · rw [if_neg h]
    exact ⟨fun hlt => absurd hlt (by linarith), fun _ => rfl,
      by rw [Option.isSome_none]; exact iff_of_false (by simp) (by linarith)⟩

/-- Witness for C2 on both sides of the boundary: 15 minutes before a pass at
t = 1000 s the job is created with delay 100 s when `now = 0`, and skipped
when `now = 1000` (the fire instant has passed). -/
theorem scheduleNotification_spec_witness :
    scheduleNotification 1000 15 0 7 = some ⟨100, 7⟩ ∧
      scheduleNotification 1000 15 1000 7 = none := by
  constructor
  · have h := (scheduleNotification_spec 1000 15 0 7).1 (by norm_num)
    norm_num at h
    exact h
  · exact (scheduleNotification_spec 1000 15 1000 7).2.1 (by norm_num)

/-- C7: raising the threshold never adds a pass: any pass returned with the
higher threshold θ' is also returned with any lower threshold θ, for the same
elevation profile and event list. -/
theorem passLoop_threshold_monotone (elev : ℚ → ℚ) (θ θ' : ℚ) (hθ : θ ≤ θ')
    (evs : List (ℚ × ℕ)) (p : PassEvent) (hp : p ∈ passLoop elev θ' evs) :
    p ∈ passLoop elev θ evs := by
  induction evs using passLoop.induct elev θ with
  | case1 t0 e0 t1 e1 t2 e2 rest h ih =>
    obtain ⟨h0, h1, h2⟩ := h
    subst h0 h1 h2
    rw [passLoop, if_pos ⟨rfl, rfl, rfl⟩] at hp ⊢
    rcases List.mem_append.1 hp with hmem | hmem
    · by_cases hth : elev t1 ≥ θ'
      · rw [if_pos hth] at hmem
        simp only [List.mem_singleton] at hmem
        subst hmem
        rw [if_pos (le_trans hθ hth)]
        exact List.mem_append_left _ (List.mem_singleton_self _)
      · rw [if_neg hth] at hmem
        simp at hmem
    · exact List.mem_append_right _ (ih hmem)
  | case2 t0 e0 t1 e1 t2 e2 rest h ih =>
    rw [passLoop, if_neg h] at hp ⊢
    exact ih hp
  | case3 hd rest hne ih =>
    rcases rest with _ | ⟨a, _ | ⟨b, tl⟩⟩
    · simp [passLoop] at hp
    · simp [passLoop] at hp
    · exact ((hne hd.1 hd.2 a.1 a.2 b.1 b.2 tl rfl rfl)).elim
  | case4 => simp [passLoop] at hp

/-- Witness for C7: the 20°-peak pass returned at threshold 15 is also
returned at threshold 10. -/
theorem passLoop_threshold_monotone_witness :
    (⟨10, 20, 30, 20⟩ : PassEvent) ∈ passLoop constElev 10 demoEvents :=
  passLoop_threshold_monotone constElev 10 15 (by norm_num) demoEvents _
    (by norm_num [passLoop, demoEvents, constElev])

/-- C10: the loop emits a pass only for a complete in-order
rise/culmination/set triple of consecutive events; an event that does not
begin such a triple is skipped one event at a time with no output, and a
trailing rise with fewer than two following events produces nothing (partial
passes are dropped, never clipped). -/
theorem passLoop_complete_triples_only (elev : ℚ → ℚ) (θ : ℚ) (evs : List (ℚ × ℕ)) :
    (∀ p ∈ passLoop elev θ evs, ∃ pre post,
      evs = pre ++ (p.rise, 0) :: (p.culmination, 1) :: (p.set, 2) :: post) ∧
    (∀ t e rest, e ≠ 0 → passLoop elev θ ((t, e) :: rest) = passLoop elev θ rest) ∧
    (∀ t0 t1 e1 t2 e2 rest, ¬(e1 = 1 ∧ e2 = 2) →
      passLoop elev θ ((t0, 0) :: (t1, e1) :: (t2, e2) :: rest) =
        passLoop elev θ ((t1, e1) :: (t2, e2) :: rest)) ∧
    (∀ t0, passLoop elev θ [(t0, 0)] = []) ∧
    (∀ t0 te, passLoop elev θ [(t0, 0), te] = []) := by
  refine ⟨?_, ?_, ?_, ?_, ?_⟩
  · intro p hp
    obtain ⟨pre, post, heq, -, -⟩ := passLoop_mem_decomp elev θ evs p hp
    exact ⟨pre, post, heq⟩
  · exact fun t e rest he => passLoop_cons_of_ne elev θ t e rest he
  · intro t0 t1 e1 t2 e2 rest hne
    rw [passLoop, if_neg (fun hc => hne ⟨hc.2.1, hc.2.2⟩)]
  · intro t0
    rfl
  · intro t0 te
    rfl

/-- Witness for C10: a lone culmination event is skipped with no output, and
the emitted pass of `demoEvents` does come from its unique complete triple. -/
theorem passLoop_complete_triples_only_witness :
    passLoop constElev 15 [(5, 1)] = passLoop constElev 15 [] ∧
      passLoop constElev 15 [(7, 0)] = [] :=
  ⟨(passLoop_complete_triples_only constElev 15 []).2.1 5 1 [] (by norm_num),
   (passLoop_complete_triples_only constElev 15 []).2.2.2.1 7⟩

/-- C3: the scan of `get_tle_for_satellite` selects the first line (in line
order) containing the tracked identifier and returns it with the two following
lines; it fails with the incomplete-data error when fewer than two lines
follow that line, and with the not-found error when no line contains the
identifier. -/
theorem findTleBlock_first_match (name : String) (lines : List String) :
    ((∀ l ∈ lines, lineContains l name = false) →
      findTleBlock name lines = .error tleNotFoundMsg) ∧
    (∀ pre m suf, lines = pre ++ m :: suf →
      (∀ l ∈ pre, lineContains l name = false) →
      lineContains m name = true →
      ((∀ l1 l2 suf2, suf = l1 :: l2 :: suf2 →
          findTleBlock name lines = .ok (m, l1, l2)) ∧
        (suf.length < 2 → findTleBlock name lines = .error tleIncompleteMsg))) := by
  induction lines with
  | nil =>
    refine ⟨fun _ => rfl, ?_⟩
    intro pre m suf h
    exact absurd h (by simp)
  | cons line rest ih =>
    constructor
    · intro hall
      have hline : lineContains line name = false := hall line (List.mem_cons_self _ _)
      have hred : findTleBlock name (line :: rest) = findTleBlock name rest := by
        simp [findTleBlock, hline]
      rw [hred]
      exact ih.1 (fun l hl => hall l (List.mem_cons_of_mem _ hl))
    · intro pre m suf heq hpre hm
      cases pre with
      | nil =>
        simp only [List.nil_append, List.cons.injEq] at heq
        obtain ⟨rfl, rfl⟩ := heq
        constructor
        · rintro l1 l2 suf2 rfl
          simp [findTleBlock, hm]
        · intro hlen
          rcases rest with _ | ⟨x, _ | ⟨y, tl⟩⟩
          · simp [findTleBlock, hm]
          · simp [findTleBlock, hm]
          · simp only [List.length_cons] at hlen
            omega
      | cons q pre2 =>
        simp only [List.cons_append, List.cons.injEq] at heq
        obtain ⟨rfl, hrest⟩ := heq
        have hq : lineContains line name = false := hpre line (List.mem_cons_self _ _)
        have hred : findTleBlock name (line :: rest) = findTleBlock name rest := by
          simp [findTleBlock, hq]
        rw [hred]
        exact (ih.2) pre2 m suf hrest (fun l hl => hpre l (List.mem_cons_of_mem _ hl)) hm

/-- Witness for C3: first-match success with two following lines, the
not-found error, and the incomplete-data error, each at a concrete input. -/
theorem findTleBlock_first_match_witness :
    findTleBlock "SAT" ["X", "SAT", "A", "B"] = .ok ("SAT", "A", "B") ∧
      findTleBlock "SAT" ["X", "Y"] = .error tleNotFoundMsg ∧
      findTleBlock "SAT" ["X", "SAT", "A"] = .error tleIncompleteMsg := by
  refine ⟨?_, ?_, ?_⟩
  · exact ((findTleBlock_first_match "SAT" ["X", "SAT", "A", "B"]).2 ["X"] "SAT" ["A", "B"]
      rfl (by decide) (by decide)).1 "A" "B" [] rfl
  · exact (findTleBlock_first_match "SAT" ["X", "Y"]).1 (by decide)
  · exact ((findTleBlock_first_match "SAT" ["X", "SAT", "A"]).2 ["X"] "SAT" ["A"]
      rfl (by decide) (by decide)).2 (by decide)

/-- Under chronological event times, the emitted passes are strictly ordered
by rise time. -/
theorem passLoop_pairwise_rise (elev : ℚ → ℚ) (θ : ℚ) (evs : List (ℚ × ℕ)) :
    evs.Pairwise (fun a b => a.1 < b.1) →
      (passLoop elev θ evs).Pairwise (fun p q => p.rise < q.rise) := by
  induction evs using passLoop.induct elev θ with
  | case1 t0 e0 t1 e1 t2 e2 rest h ih =>
    obtain ⟨h0, h1, h2⟩ := h
    subst h0 h1 h2
    intro hchron
    rw [passLoop, if_pos ⟨rfl, rfl, rfl⟩]
    rw [List.pairwise_cons] at hchron
    obtain ⟨hhead, hchron⟩ := hchron
    rw [List.pairwise_cons] at hchron
    obtain ⟨-, hchron⟩ := hchron
    rw [List.pairwise_cons] at hchron
    obtain ⟨-, hrest⟩ := hchron
    by_cases hth : elev t1 ≥ θ
    · rw [if_pos hth]
      simp only [List.singleton_append]
      refine List.Pairwise.cons ?_ (ih hrest)
      intro q hq
      obtain ⟨pre, post, heq, -, -⟩ := passLoop_mem_decomp elev θ rest q hq
      have hmem : (q.rise, (0 : ℕ)) ∈ rest := by
        rw [heq]; simp
      exact hhead (q.rise, 0) (List.mem_cons_of_mem _ (List.mem_cons_of_mem _ hmem))
    · rw [if_neg hth]
      simpa using ih hrest
  | case2 t0 e0 t1 e1 t2 e2 rest h ih =>
    intro hchron
    rw [passLoop, if_neg h]
    exact ih (List.Pairwise.of_cons hchron)
  | case3 hd rest hne ih =>
    intro hchron
    rcases rest with _ | ⟨a, _ | ⟨b, tl⟩⟩
    · simp [passLoop]
    · simp [passLoop]
    · exact ((hne hd.1 hd.2 a.1 a.2 b.1 b.2 tl rfl rfl)).elim
  | case4 =>
    intro _
    simp [passLoop]

/-- C4: assuming `find_events` returns its events in chronological order,
every emitted pass satisfies rise < culmination < set and the result list is
ordered by strictly increasing rise time. -/
theorem passLoop_chronological (elev : ℚ → ℚ) (θ : ℚ) (evs : List (ℚ × ℕ))
    (hchron : evs.Pairwise (fun a b => a.1 < b.1)) :
    (∀ p ∈ passLoop elev θ evs, p.rise < p.culmination ∧ p.culmination < p.set) ∧
    (passLoop elev θ evs).Pairwise (fun p q => p.rise < q.rise) := by
  refine ⟨?_, passLoop_pairwise_rise elev θ evs hchron⟩
  intro p hp
  obtain ⟨pre, post, heq, -, -⟩ := passLoop_mem_decomp elev θ evs p hp
  have hinf : [(p.rise, (0 : ℕ)), (p.culmination, 1), (p.set, 2)] <:+: evs :=
    ⟨pre, post, by rw [heq]; simp⟩
  have hpw := List.Pairwise.sublist hinf.sublist hchron
  rw [List.pairwise_cons] at hpw
  obtain ⟨h1, hpw⟩ := hpw
  rw [List.pairwise_cons] at hpw
  obtain ⟨h2, -⟩ := hpw
  exact ⟨h1 (p.culmination, 1) (List.mem_cons_self _ _),
    h2 (p.set, 2) (List.mem_cons_self _ _)⟩

/-- Witness for C4 on the parabolic pass: its triple is strictly ordered and
the singleton result is trivially sorted by rise time. -/
theorem passLoop_chronological_witness :
    ((1 : ℚ) < 2 ∧ (2 : ℚ) < 3) ∧
      (passLoop parabolaElev 0 parabolaEvents).Pairwise (fun p q => p.rise < q.rise) := by
  have h := passLoop_chronological parabolaElev 0 parabolaEvents
    (by norm_num [parabolaEvents, List.pairwise_cons])
  refine ⟨?_, h.2⟩
  exact h.1 ⟨1, 2, 3, 1⟩ (by norm_num [passLoop, parabolaEvents, parabolaElev])

/-- The parabolic profile with its single event triple satisfies the
`find_events` contract. -/
theorem parabolaElev_spec : FindEventsSpec parabolaElev parabolaEvents := by
  refine ⟨?_, ?_, ?_, ?_⟩
  · norm_num [parabolaEvents, List.pairwise_cons]
  · rintro te hte hcode
    simp only [parabolaEvents, List.mem_cons, List.not_mem_nil, or_false] at hte
    rcases hte with rfl | rfl | rfl
    · norm_num [parabolaElev]
    · rcases hcode with h | h <;> norm_num at h
    · norm_num [parabolaElev]
  · intro pre t0 t1 t2 post heq
    rcases pre with _ | ⟨a, pre2⟩
    · simp only [parabolaEvents, List.nil_append] at heq
      injection heq with ha heq2
      injection heq2 with hb heq3
      injection heq3 with hc hpost
      injection ha with ha1 ha2
      injection hb with hb1 hb2
      injection hc with hc1 hc2
      subst ha1
      subst hb1
      subst hc1
      intro t ht1 ht2
      simp only [parabolaElev]
      nlinarith [sq_nonneg (t - 2)]
    · exfalso
      have hlen := congrArg List.length heq
      simp [parabolaEvents] at hlen
      omega
  · intro te hte h0
    exact ⟨2, by norm_num [parabolaElev]⟩

/-- C5: under the `find_events` contract, every returned pass records as peak
elevation exactly the elevation at the culmination instant; that value
dominates the elevation everywhere strictly between rise and set and is at
least the elevation at rise and at set, which are 0° horizon crossings. -/
theorem passLoop_culmination_dominance (elev : ℚ → ℚ) (θ : ℚ) (evs : List (ℚ × ℕ))
    (hspec : FindEventsSpec elev evs) (p : PassEvent)
    (hp : p ∈ passLoop elev θ evs) :
    p.maxElevation = elev p.culmination ∧
    elev p.rise = 0 ∧ elev p.set = 0 ∧
    (∀ t, p.rise < t → t < p.set → elev t ≤ p.maxElevation) ∧
    elev p.rise ≤ p.maxElevation ∧ elev p.set ≤ p.maxElevation := by
  obtain ⟨pre, post, heq, hmax, -⟩ := passLoop_mem_decomp elev θ evs p hp
  have hrisemem : (p.rise, (0 : ℕ)) ∈ evs := by rw [heq]; simp
  have hsetmem : (p.set, (2 : ℕ)) ∈ evs := by rw [heq]; simp
  have h0 : elev p.rise = 0 := hspec.horizonZero _ hrisemem (Or.inl rfl)
  have h2 : elev p.set = 0 := hspec.horizonZero _ hsetmem (Or.inr rfl)
  have hcul := hspec.culminationMax pre p.rise p.culmination p.set post heq
  have hinf : [(p.rise, (0 : ℕ)), (p.culmination, 1), (p.set, 2)] <:+: evs :=
    ⟨pre, post, by rw [heq]; simp⟩
  have hpw := List.Pairwise.sublist hinf.sublist hspec.chron
  rw [List.pairwise_cons] at hpw
  obtain ⟨hr, -⟩ := hpw
  have hrs : p.rise < p.set :=
    hr (p.set, 2) (List.mem_cons_of_mem _ (List.mem_cons_self _ _))
  refine ⟨hmax, h0, h2, ?_, ?_, ?_⟩
  · intro t ht1 ht2
    rw [hmax]
    exact hcul t (le_of_lt ht1) (le_of_lt ht2)
  · rw [hmax]
    exact hcul p.rise le_rfl (le_of_lt hrs)
  · rw [hmax]
    exact hcul p.set (le_of_lt hrs) le_rfl

/-- Witness for C5: the parabolic pass records peak 1° at culmination t = 2,
which dominates the open pass interval and the two 0° endpoints. -/
theorem passLoop_culmination_dominance_witness :
    (⟨1, 2, 3, 1⟩ : PassEvent).maxElevation = parabolaElev 2 ∧
      parabolaElev 1 = 0 ∧ parabolaElev 3 = 0 ∧
      (∀ t, (1 : ℚ) < t → t < 3 → parabolaElev t ≤ 1) ∧
      parabolaElev 1 ≤ 1 ∧ parabolaElev 3 ≤ 1 :=
  passLoop_culmination_dominance parabolaElev 0 parabolaEvents parabolaElev_spec
    ⟨1, 2, 3, 1⟩ (by norm_num [passLoop, parabolaEvents, parabolaElev])

/-- C6: if the object's elevation never exceeds 0° anywhere (so the contract
rules out any rise event in the window), the scanning loop returns the empty
list — an empty result, not an error. -/
theorem passLoop_empty_when_never_above (elev : ℚ → ℚ) (θ : ℚ) (evs : List (ℚ × ℕ))
    (hspec : FindEventsSpec elev evs) (hlow : ∀ t, elev t ≤ 0) :
    passLoop elev θ evs = [] := by
  apply passLoop_no_rise
  intro te hte h0
  obtain ⟨t, ht⟩ := hspec.risePositive te hte h0
  exact absurd (hlow t) (not_le.2 ht)

/-- Witness for C6: an identically-zero elevation with a lone culmination
event yields the empty pass list. -/
theorem passLoop_empty_when_never_above_witness :
    passLoop zeroElev 15 culminationOnlyEvents = [] := by
  apply passLoop_empty_when_never_above
  · refine ⟨?_, ?_, ?_, ?_⟩
    · simp [culminationOnlyEvents]
    · rintro te hte hcode
      simp only [culminationOnlyEvents, List.mem_cons, List.not_mem_nil, or_false] at hte
      subst hte
      rcases hcode with h | h <;> norm_num at h
    · intro pre t0 t1 t2 post heq
      exfalso
      have hlen := congrArg List.length heq
      simp [culminationOnlyEvents] at hlen
      omega
    · rintro te hte h0
      simp only [culminationOnlyEvents, List.mem_cons, List.not_mem_nil, or_false] at hte
      subst hte
      norm_num at h0
  · intro t
    norm_num [zeroElev]

/-- C8: missing or invalid element data never silently falls back to stale
state: when no TLE text is cached and the file is absent, when the line scan
fails, and when the satellite construction fails, `calculate_passes` returns
the explicit error — never a pass list. -/
theorem calculatePasses_no_stale_fallback
    (mk : String → String → String → Option EarthSatellite)
    (findEvents : EarthSatellite → Except String (List (ℚ × ℕ)))
    (elevAt : EarthSatellite → ℚ → ℚ) (st : BotState) (file : Option (List String)) :
    (st.tleContent = none → file = none →
      (calculatePasses mk findEvents elevAt st file).1 = .error tleFileMissingMsg) ∧
    (∀ e, (getTleForSatellite st file).1 = .error e →
      (calculatePasses mk findEvents elevAt st file).1 = .error e) ∧
    (∀ nm l1 l2, (getTleForSatellite st file).1 = .ok (nm, l1, l2) →
      mk l1 l2 ((getTleForSatellite st file).2).config.satName = none →
      (calculatePasses mk findEvents elevAt st file).1 =
        .error "Ошибка создания спутника") := by
  refine ⟨?_, ?_, ?_⟩
  · intro h1 h2
    apply calculatePasses_error
    apply getSatellite_error
    rcases st with ⟨tc, cfg⟩
    simp only at h1
    subst h1
    subst h2
    rfl
  · intro e he
    exact calculatePasses_error _ _ _ _ _ _ (getSatellite_error _ _ _ _ he)
  · intro nm l1 l2 hok hmk
    exact calculatePasses_error _ _ _ _ _ _ (getSatellite_mk_fail _ _ _ _ _ _ hok hmk)

/-- Witness for C8: with an empty cache and no TLE file, `calculate_passes`
reports the missing-file error. -/
theorem calculatePasses_no_stale_fallback_witness :
    (calculatePasses demoMakeSat demoFindEvents demoElev ⟨none, defaultConfig⟩ none).1 =
      .error tleFileMissingMsg :=
  (calculatePasses_no_stale_fallback demoMakeSat demoFindEvents demoElev
    ⟨none, defaultConfig⟩ none).1 rfl rfl

/-- C9 counterexample: a lookup call is not write-free over shared state —
starting from an empty cache with a TLE file on disk, `get_tle_for_satellite`
ASSIGNS the global `tle_content` (`main.py` line 74), so the state after the
call differs from the state before it. -/
theorem getTleForSatellite_writes_shared_state :
    (getTleForSatellite ⟨none, defaultConfig⟩ (some ["X"])).2 ≠
      (⟨none, defaultConfig⟩ : BotState) := by
  simp [getTleForSatellite]

/-- C9 amended: lookup and prediction calls never write any configuration
value, leave the whole state unchanged whenever the TLE cache is already
populated, and the only write ever performed is filling an empty cache with
the file's content; `calculate_passes` performs no write of its own beyond
that of `get_tle_for_satellite`. -/
theorem lookupAndPredictionFrame
    (mk : String → String → String → Option EarthSatellite)
    (findEvents : EarthSatellite → Except String (List (ℚ × ℕ)))
    (elevAt : EarthSatellite → ℚ → ℚ) (st : BotState) (file : Option (List String)) :
    ((getTleForSatellite st file).2).config = st.config ∧
    (∀ txt, st.tleContent = some txt → (getTleForSatellite st file).2 = st) ∧
    (st.tleContent = none → ((getTleForSatellite st file).2).tleContent = file) ∧
    (calculatePasses mk findEvents elevAt st file).2 = (getTleForSatellite st file).2 :=
  ⟨getTleForSatellite_config st file,
   fun txt h => getTleForSatellite_cached st file txt h,
   fun h => getTleForSatellite_fills st file h,
   calculatePasses_state mk findEvents elevAt st file⟩

/-- Witness for C9 (amended): with a populated cache the lookup call leaves
the state exactly as it was. -/
theorem lookupAndPredictionFrame_witness :
    (getTleForSatellite demoState none).2 = demoState :=
  (lookupAndPredictionFrame demoMakeSat demoFindEvents demoElev demoState none).2.1
    demoLines rfl
